import Mathlib

/-!
Verification development for the chunked-upload / render pipeline of the
`manal.backend` repository.  The definitions below are shallow embeddings of
the TypeScript sources:

* `src/config/upload-limits.config.ts`      → `UPLOAD_LIMITS`
* `src/modules/upload/chunked-upload.service.ts`
                                            → `ChunkedUploadService.*`
* the Redis variant of the same service (`ChunkedUploadService` with a
  Redis-backed session store)               → `ChunkedUploadService.finalizeUploadRedis`
* `src/modules/upload/upload.service.ts`    → `UploadService.*`
* the BullMQ PDF render worker (`pdfWorker`)→ `pdfWorkerSteps` / `pdfWorkerRun`

Machine numbers are modelled as `Nat` (byte counts, sizes) and `Int`
(client-supplied chunk indices, which may be negative); byte streams as
`List Nat`; fallible code returns `Except AppError _`.  External effects
(uuid generation, Prisma lookups, object storage) appear as explicit
parameters or as explicit state (`WorldState`).
-/

/-- Bytes of a file or chunk; each element is one byte. -/
abbrev Bytes := List Nat

/-- AppError from `src/utils/app-error.ts`: a message plus an HTTP status.
`status = 400` is the InvalidRequest class, `403` Forbidden, `404` NotFound,
`423` Locked. -/
structure AppError where
  message : String
  status : Nat
deriving DecidableEq, Repr

/-- Upload limits from `src/config/upload-limits.config.ts`. -/
structure UploadLimits where
  IMAGE : Nat
  LOGO : Nat
  PDF : Nat
  CHUNK : Nat
  MAX_TOTAL_FILE : Nat
deriving Repr

/-- The configured `UPLOAD_LIMITS` constant. -/
def UPLOAD_LIMITS : UploadLimits :=
  { IMAGE := 5 * 1024 * 1024
    LOGO := 2 * 1024 * 1024
    PDF := 100 * 1024 * 1024
    CHUNK := 5 * 1024 * 1024
    MAX_TOTAL_FILE := 500 * 1024 * 1024 }

/-- JavaScript `Math.ceil(a / b)` for non-negative integers (`b > 0`). -/
def ceilDiv (a b : Nat) : Nat := (a + b - 1) / b

/-- Render status values of the `PartFile` Prisma model. -/
inductive RenderStatus where
  | PROCESSING
  | COMPLETED
  | FAILED
deriving DecidableEq, Repr

/-- The durable `PartFile` (asset) record, restricted to the fields this
subsystem reads and writes. -/
structure PartFile where
  id : String
  partId : String
  title : String
  displayName : Option String
  type : String
  storageKey : String
  renderStatus : RenderStatus
  order : Nat
  isSecure : Bool
  pageCount : Nat
deriving DecidableEq, Repr

/-- In-flight chunked-upload session (`ChunkedUploadSession` in
`chunked-upload.service.ts`).  `receivedChunks` is the set of received chunk
indices; the scratch directory contents are modelled separately in
`UploadState.tempFiles`. -/
structure ChunkedUploadSession where
  uploadId : String
  filename : String
  fileSize : Nat
  mimeType : String
  totalChunks : Nat
  receivedChunks : Finset Int
  partId : String
  isSecure : Bool
  userId : String

/-- A session together with its scratch directory: `tempFiles i` is the
content of `chunk-<i>` in the session's temp dir, if that file exists. -/
structure UploadState where
  session : ChunkedUploadSession
  tempFiles : Int → Option Bytes

/-- Input of `initUpload`. -/
structure InitUploadInput where
  filename : String
  fileSize : Nat
  totalChunks : Nat
  mimeType : String
  partId : String
  isSecure : Bool

/-- Input of `uploadChunk`.  The client-supplied `chunkIndex` is a raw
integer (the service checks `chunkIndex < 0`). -/
structure ChunkUploadInput where
  uploadId : String
  chunkIndex : Int
  totalChunks : Nat
  chunk : Bytes

/-- Input of `finalizeUpload`. -/
structure FinalizeUploadInput where
  uploadId : String
  partId : String
  isSecure : Bool

/-- `ChunkedUploadService.initUpload`.  The Prisma part lookup, the user-role
lookup and the generated uuid are external effects, passed in as
`partExists` / `partInstructorId` / `userRole` / `uploadId`.  On success the
created session (with an empty received set and fresh scratch dir) is
returned. -/
def ChunkedUploadService.initUpload (userId : String) (input : InitUploadInput)
    (partExists : Bool) (partInstructorId : String) (userRole : Option String)
    (uploadId : String) : Except AppError ChunkedUploadSession :=
  if UPLOAD_LIMITS.MAX_TOTAL_FILE < input.fileSize then
    .error ⟨"File too large. Maximum size is " ++
      toString (UPLOAD_LIMITS.MAX_TOTAL_FILE / (1024 * 1024)) ++ "MB", 400⟩
  else
    let expectedChunks := ceilDiv input.fileSize UPLOAD_LIMITS.CHUNK
    if input.totalChunks ≠ expectedChunks then
      .error ⟨"Invalid chunk count", 400⟩
    else if ¬ partExists then
      .error ⟨"Part not found", 404⟩
    else
      let isAdmin := userRole = some "ADMIN"
      let isOwner := partInstructorId = userId
      if ¬ isAdmin ∧ ¬ isOwner then
        .error ⟨"Access denied", 403⟩
      else
        .ok { uploadId := uploadId
              filename := input.filename
              fileSize := input.fileSize
              mimeType := input.mimeType
              totalChunks := input.totalChunks
              receivedChunks := ∅
              partId := input.partId
              isSecure := input.isSecure
              userId := userId }

/-- `ChunkedUploadService.uploadChunk` (in-memory variant; the Redis variant
has the same validation and set semantics).  Writes the chunk into the
scratch slot for its index and adds the index to the received set; returns
`(received, total)`. -/
def ChunkedUploadService.uploadChunk (st : UploadState) (input : ChunkUploadInput) :
    Except AppError (UploadState × Nat × Nat) :=
  let session := st.session
  if input.chunkIndex < 0 ∨ (session.totalChunks : Int) ≤ input.chunkIndex then
    .error ⟨"Invalid chunk index", 400⟩
  else
    -- `expectedChunkSize` is computed by the source but never compared.
    let isLastChunk := input.chunkIndex = (session.totalChunks : Int) - 1
    let _expectedChunkSize :=
      if isLastChunk then
        if session.fileSize % UPLOAD_LIMITS.CHUNK = 0 then UPLOAD_LIMITS.CHUNK
        else session.fileSize % UPLOAD_LIMITS.CHUNK
      else UPLOAD_LIMITS.CHUNK
    if UPLOAD_LIMITS.CHUNK < input.chunk.length then
      .error ⟨"Chunk too large", 400⟩
    else
      let tempFiles' : Int → Option Bytes :=
        fun i => if i = input.chunkIndex then some input.chunk else st.tempFiles i
      let session' := { session with
        receivedChunks := insert input.chunkIndex session.receivedChunks }
      .ok ({ session := session', tempFiles := tempFiles' },
           session'.receivedChunks.card, session.totalChunks)

/-- Branding label passed to the queue (`src/constants/watermark.ts` is not in
the snapshot; `uploadLessonPdf` hard-codes the same label inline, and no claim
depends on its exact value). -/
def WATERMARK_QUEUE_LABEL : String := "Dr. Manal"

/-- Job shape enqueued by the in-memory chunked service (a local file path). -/
structure ChunkedPdfJob where
  filePath : String
  partFileId : String
  adminName : String
deriving DecidableEq, Repr

/-- Render-job shape consumed by the PDF worker and enqueued by
`uploadLessonPdf` and the Redis-variant finalize. -/
structure PdfJobData where
  sourceKey : String
  sourceMime : String
  originalName : String
  partFileId : String
  adminName : Option String
deriving DecidableEq, Repr

/-- `fs.promises.readFile` of one scratch chunk file: throws (ENOENT) when the
slot was never written. -/
def readChunkFile (tempFiles : Int → Option Bytes) (i : Nat) : Except AppError Bytes :=
  match tempFiles (Int.ofNat i) with
  | some b => .ok b
  | none => .error ⟨"ENOENT: missing chunk file", 500⟩

/-- The assembly loop of `finalizeUpload` over a list of indices: reads each
chunk file and appends its bytes to the output stream. -/
def assembleLoop (tempFiles : Int → Option Bytes) : List Nat → Except AppError Bytes
  | [] => .ok []
  | i :: rest =>
    match readChunkFile tempFiles i with
    | .error e => .error e
    | .ok b =>
      match assembleLoop tempFiles rest with
      | .error e => .error e
      | .ok tl => .ok (b ++ tl)

/-- The assembly loop of `finalizeUpload`: reads `chunk-00000 .. chunk-(N-1)`
in ascending index order and concatenates them. -/
def assembleChunks (tempFiles : Int → Option Bytes) (totalChunks : Nat) :
    Except AppError Bytes :=
  assembleLoop tempFiles (List.range totalChunks)

/-- `getExtension` of the in-memory chunked service. -/
def ChunkedUploadService.getExtension (mimetype : String) : String :=
  if mimetype = "application/pdf" then ".pdf"
  else if mimetype = "application/vnd.openxmlformats-officedocument.presentationml.presentation" then ".pptx"
  else if mimetype = "application/vnd.ms-powerpoint" then ".ppt"
  else if mimetype = "application/msword" then ".doc"
  else if mimetype = "application/vnd.openxmlformats-officedocument.wordprocessingml.document" then ".docx"
  else ".bin"

/-- `getExtension` of the Redis-variant chunked service (adds `text/plain`). -/
def ChunkedUploadService.getExtensionRedis (mimetype : String) : String :=
  if mimetype = "application/pdf" then ".pdf"
  else if mimetype = "application/vnd.openxmlformats-officedocument.presentationml.presentation" then ".pptx"
  else if mimetype = "application/vnd.ms-powerpoint" then ".ppt"
  else if mimetype = "application/msword" then ".doc"
  else if mimetype = "application/vnd.openxmlformats-officedocument.wordprocessingml.document" then ".docx"
  else if mimetype = "text/plain" then ".txt"
  else ".bin"

/-- Result of the in-memory `finalizeUpload`: the assembled bytes, the
returned `(storageKey, assetId)`, the created `PartFile` row, and the external
calls it made (queue add, public upload). -/
structure FinalizeResult where
  assembled : Bytes
  storageKey : String
  assetId : String
  record : PartFile
  enqueued : Option ChunkedPdfJob
  publicUpload : Option (String × Bytes)
deriving DecidableEq, Repr

/-- `ChunkedUploadService.finalizeUpload` (in-memory variant,
`src/modules/upload/chunked-upload.service.ts`).  The generated uuid and the
`getNextOrder` DB read are passed in as `fileId` / `nextOrder`.  Note that the
ingestion branch tests `session.isSecure` only. -/
def ChunkedUploadService.finalizeUpload (userId : String) (st : UploadState)
    (input : FinalizeUploadInput) (fileId : String) (nextOrder : Nat) :
    Except AppError FinalizeResult :=
  let session := st.session
  if session.userId ≠ userId then
    .error ⟨"Access denied", 403⟩
  else if session.receivedChunks.card ≠ session.totalChunks then
    .error ⟨"Missing chunks. Received " ++ toString session.receivedChunks.card ++
      "/" ++ toString session.totalChunks, 400⟩
  else
    match assembleChunks st.tempFiles session.totalChunks with
    | .error e => .error e
    | .ok fileBuffer =>
      if session.isSecure then
        let record : PartFile :=
          { id := fileId, partId := session.partId, title := session.filename
            displayName := some session.filename, type := "PDF", storageKey := ""
            renderStatus := .PROCESSING, order := nextOrder, isSecure := true
            pageCount := 0 }
        let ext := ChunkedUploadService.getExtension session.mimeType
        let workerInputPath := "/tmp/lms-upload-" ++ fileId ++ "-input" ++ ext
        .ok { assembled := fileBuffer, storageKey := "", assetId := fileId
              record := record
              enqueued := some { filePath := workerInputPath, partFileId := fileId
                                 adminName := "Dr. Manal" }
              publicUpload := none }
      else
        let storageKey := "/public/" ++ session.partId ++ "/" ++ fileId ++ "/" ++
          session.filename
        let record : PartFile :=
          { id := fileId, partId := session.partId, title := session.filename
            displayName := none, type := "PDF", storageKey := storageKey
            renderStatus := .COMPLETED, order := nextOrder, isSecure := false
            pageCount := 0 }
        .ok { assembled := fileBuffer, storageKey := storageKey, assetId := fileId
              record := record, enqueued := none
              publicUpload := some (storageKey, fileBuffer) }

/-- Result of the Redis-variant `finalizeUpload`. -/
structure FinalizeResultRedis where
  assembled : Bytes
  storageKey : String
  assetId : String
  record : PartFile
  enqueued : Option PdfJobData
  stagedUpload : Option (String × Bytes)
  publicUpload : Option (String × Bytes)
deriving DecidableEq, Repr

/-- `ChunkedUploadService.finalizeUpload`, Redis variant.  Identical
validation and assembly, but the ingestion branch forces the secure path for
any non-PDF mime type (`effectiveSecure`), stages the source in shared
storage, and enqueues a `sourceKey`-shaped job. -/
def ChunkedUploadService.finalizeUploadRedis (userId : String) (st : UploadState)
    (input : FinalizeUploadInput) (fileId : String) (nextOrder : Nat) :
    Except AppError FinalizeResultRedis :=
  let session := st.session
  if session.userId ≠ userId then
    .error ⟨"Access denied", 403⟩
  else if session.receivedChunks.card ≠ session.totalChunks then
    .error ⟨"Missing chunks. Received " ++ toString session.receivedChunks.card ++
      "/" ++ toString session.totalChunks, 400⟩
  else
    match assembleChunks st.tempFiles session.totalChunks with
    | .error e => .error e
    | .ok fileBuffer =>
      let requiresNormalization := session.mimeType ≠ "application/pdf"
      let effectiveSecure := session.isSecure ∨ requiresNormalization
      if effectiveSecure then
        let record : PartFile :=
          { id := fileId, partId := session.partId, title := session.filename
            displayName := some session.filename, type := "PDF", storageKey := ""
            renderStatus := .PROCESSING, order := nextOrder, isSecure := true
            pageCount := 0 }
        let ext := ChunkedUploadService.getExtensionRedis session.mimeType
        let sourceKey := "/staging/pdf-input/" ++ fileId ++ "/source" ++ ext
        .ok { assembled := fileBuffer, storageKey := "", assetId := fileId
              record := record
              enqueued := some { sourceKey := sourceKey
                                 sourceMime := session.mimeType
                                 originalName := session.filename
                                 partFileId := fileId
                                 adminName := some WATERMARK_QUEUE_LABEL }
              stagedUpload := some (sourceKey, fileBuffer)
              publicUpload := none }
      else
        let storageKey := "/public/" ++ session.partId ++ "/" ++ fileId ++ "/" ++
          session.filename
        let record : PartFile :=
          { id := fileId, partId := session.partId, title := session.filename
            displayName := none, type := "PDF", storageKey := storageKey
            renderStatus := .COMPLETED, order := nextOrder, isSecure := false
            pageCount := 0 }
        .ok { assembled := fileBuffer, storageKey := storageKey, assetId := fileId
              record := record, enqueued := none, stagedUpload := none
              publicUpload := some (storageKey, fileBuffer) }

/-- Length of the trailing run of non-dot characters of a file name. -/
def extTailLen (s : String) : Nat :=
  (s.toList.reverse.takeWhile (fun c => c ≠ '.')).length

/-- `path.extname` for plain file names (no directory separators): the suffix
starting at the last dot, or `""` when there is no dot or the only dot is the
leading character. -/
def pathExtname (s : String) : String :=
  let cs := s.toList
  let t := extTailLen s
  if t = cs.length then ""
  else if cs.length - t - 1 = 0 then ""
  else String.mk (cs.drop (cs.length - t - 1))

/-- `path.parse(s).name` for plain file names: the name without its
extension. -/
def pathParseName (s : String) : String :=
  let cs := s.toList
  let t := extTailLen s
  if t = cs.length then s
  else if cs.length - t - 1 = 0 then s
  else String.mk (cs.take (cs.length - t - 1))

/-- `String.prototype.toLowerCase` (ASCII suffices for mime/extension text). -/
def toLowerStr (s : String) : String := s.map Char.toLower

/-- `UploadService.getExtension` (`upload.service.ts`): throws on an
unsupported type. -/
def UploadService.getExtension (mimetype : String) : Except AppError String :=
  if mimetype = "image/jpeg" ∨ mimetype = "image/jpg" then .ok ".jpg"
  else if mimetype = "image/png" then .ok ".png"
  else if mimetype = "image/webp" then .ok ".webp"
  else if mimetype = "application/pdf" then .ok ".pdf"
  else if mimetype = "application/vnd.openxmlformats-officedocument.presentationml.presentation" then .ok ".pptx"
  else if mimetype = "application/vnd.ms-powerpoint" then .ok ".ppt"
  else if mimetype = "application/msword" then .ok ".doc"
  else if mimetype = "application/vnd.openxmlformats-officedocument.wordprocessingml.document" then .ok ".docx"
  else if mimetype = "text/plain" then .ok ".txt"
  else .error ⟨"Unsupported file type", 400⟩

/-- The document mime types accepted by `uploadLessonPdf`. -/
def allowedLessonMimes : List String :=
  [ "application/pdf"
  , "application/vnd.openxmlformats-officedocument.presentationml.presentation"
  , "application/vnd.ms-powerpoint"
  , "application/msword"
  , "application/vnd.openxmlformats-officedocument.wordprocessingml.document"
  , "text/plain" ]

/-- The multer file passed to `uploadLessonPdf`. -/
structure LessonUploadFile where
  mimetype : String
  originalname : String
  buffer : Bytes
deriving DecidableEq, Repr

/-- Result of `uploadLessonPdf`: either the secure path (row created
PROCESSING, source staged privately, job enqueued, `{status:'QUEUED', id}`
returned) or the direct-publish path (row created COMPLETED after a public
upload). -/
inductive UploadLessonResult where
  | queued (id : String) (record : PartFile) (stagedUpload : String × Bytes)
      (job : PdfJobData)
  | direct (record : PartFile) (publicUpload : String × Bytes)
deriving DecidableEq, Repr

/-- `UploadService.uploadLessonPdf` (`upload.service.ts`).  External effects
passed in: `configOk` (Bunny env vars), `partExists` / `partInstructorId`
(Prisma part lookup), `nextOrder` (order query) and `fileId` (uuid).
`isSecureStr` is the raw request field: absent defaults to secure, otherwise
only the string `"true"` requests security; non-PDF sources force the secure
path regardless. -/
def UploadService.uploadLessonPdf (userId lessonId : String)
    (file : LessonUploadFile) (title : Option String) (isSecureStr : Option String)
    (configOk : Bool) (partExists : Bool) (partInstructorId : String)
    (nextOrder : Nat) (fileId : String) :
    Except AppError UploadLessonResult :=
  if ¬ configOk then
    .error ⟨"Storage not configured (Missing ENV)", 503⟩
  else if file.mimetype ∉ allowedLessonMimes then
    .error ⟨"Unsupported file type. Allowed: PDF, PPTX, DOCX, TXT", 400⟩
  else
    let requestedSecure : Bool :=
      match isSecureStr with
      | none => true
      | some s => decide (s = "true")
    let requiresNormalization : Bool := decide (file.mimetype ≠ "application/pdf")
    let isSecure : Bool := requestedSecure || requiresNormalization
    if ¬ partExists then
      .error ⟨"Part not found", 404⟩
    else if partInstructorId ≠ userId then
      .error ⟨"Access denied", 403⟩
    else if isSecure = true then
      match UploadService.getExtension file.mimetype with
      | .error e => .error e
      | .ok ext =>
        let sourceKey := "/staging/pdf-input/" ++ fileId ++ "/source" ++ ext
        let displayName := pathParseName file.originalname ++ ".pdf"
        let record : PartFile :=
          { id := fileId, partId := lessonId
            title := title.getD file.originalname
            displayName := some displayName, type := "PDF", storageKey := ""
            renderStatus := .PROCESSING, order := nextOrder
            isSecure := isSecure, pageCount := 0 }
        .ok (.queued fileId record (sourceKey, file.buffer)
          { sourceKey := sourceKey, sourceMime := file.mimetype
            originalName := file.originalname, partFileId := fileId
            adminName := some "Dr. Manal" })
    else
      let key := "/public/" ++ lessonId ++ "/" ++ fileId ++ "/" ++ file.originalname
      let record : PartFile :=
        { id := fileId, partId := lessonId
          title := title.getD file.originalname
          displayName := none, type := "PDF", storageKey := key
          renderStatus := .COMPLETED, order := nextOrder
          isSecure := false, pageCount := 0 }
      .ok (.direct record (key, file.buffer))

/-- The access-control context shared by `getRenderedPage`, `getSecurePdf` and
`getDocumentMetadata`: results of the course/enrollment/user lookups.
`enrollmentActive = some b` means an enrollment row exists and `b` says its
status is ACTIVE; `lockIsLocked` is the part-lock lookup result. -/
structure AccessCtx where
  isInstructor : Bool
  isAdmin : Bool
  courseIsFree : Bool
  enrollmentActive : Option Bool
  lockIsLocked : Bool
deriving DecidableEq, Repr

/-- The `hasAccess` expression of the read endpoints. -/
def accessGranted (ctx : AccessCtx) : Bool :=
  ctx.isInstructor || ctx.isAdmin || ctx.courseIsFree ||
    decide (ctx.enrollmentActive = some true)

/-- The centralized lock check applies (and blocks) for enrolled
non-instructor non-admin callers whose part lock is set. -/
def lockBlocks (ctx : AccessCtx) : Bool :=
  ctx.enrollmentActive.isSome && !ctx.isInstructor && !ctx.isAdmin &&
    ctx.lockIsLocked

/-- `UploadService.getRenderedPage`: returns the page-image storage key it
streams, or the AppError it throws.  `pageNumber` is the raw (possibly
non-positive) client integer. -/
def UploadService.getRenderedPage (partFile? : Option PartFile) (ctx : AccessCtx)
    (pageNumber : Int) : Except AppError String :=
  match partFile? with
  | none => .error ⟨"Document not found", 404⟩
  | some partFile =>
    if ¬ accessGranted ctx then
      .error ⟨"Access denied", 403⟩
    else if lockBlocks ctx then
      .error ⟨"This content is currently locked by the administrator.", 403⟩
    else if pageNumber < 1 ∨ (partFile.pageCount : Int) < pageNumber then
      .error ⟨"Page not found", 404⟩
    else
      .ok (partFile.storageKey ++ "/page-" ++ toString pageNumber ++ ".png")

/-- `UploadService.getSecurePdf`: returns the `(storageKey, downloadName)` it
streams once COMPLETED; a still-processing asset yields the Locked (423)
signal.  `storageHasKey` is whether `downloadStream` finds the object. -/
def UploadService.getSecurePdf (partFile? : Option PartFile) (ctx : AccessCtx)
    (storageHasKey : Bool) : Except AppError (String × String) :=
  match partFile? with
  | none => .error ⟨"Document not found", 404⟩
  | some partFile =>
    if ¬ accessGranted ctx then
      .error ⟨"Access denied", 403⟩
    else if lockBlocks ctx then
      .error ⟨"This content is currently locked by the administrator.", 403⟩
    else if partFile.renderStatus ≠ .COMPLETED then
      .error ⟨"Document is processing", 423⟩
    else if ¬ storageHasKey then
      .error ⟨"File not found in storage", 404⟩
    else
      .ok (partFile.storageKey, partFile.displayName.getD (partFile.title ++ ".pdf"))

/-- `inferExtension` of the PDF worker: the mime switch, then a lower-cased
`path.extname` fallback on the original name, then `.bin`. -/
def inferExtension (sourceMime originalName : String) : String :=
  if sourceMime = "application/pdf" then ".pdf"
  else if sourceMime = "application/vnd.openxmlformats-officedocument.presentationml.presentation" then ".pptx"
  else if sourceMime = "application/vnd.ms-powerpoint" then ".ppt"
  else if sourceMime = "application/msword" then ".doc"
  else if sourceMime = "application/vnd.openxmlformats-officedocument.wordprocessingml.document" then ".docx"
  else if sourceMime = "text/plain" then ".txt"
  else
    let fromName := toLowerStr (pathExtname originalName)
    if fromName ≠ "" then fromName else ".bin"

/-- Errors raised inside the worker's try block, tagged with the log category
the source attaches to each step (steps 4-6 have no category of their own and
bubble straight to the top-level catch, summarized here as `renderFailed`). -/
inductive WorkerErr where
  | statusUpdateFailed
  | sourceNotFound
  | convertFailed
  | renderFailed
  | uploadFailed
  | dbUpdateFailed
deriving DecidableEq, Repr

/-- Point update of the object-storage map. -/
def updateStore (f : String → Option Bytes) (k : String) (v : Option Bytes) :
    String → Option Bytes :=
  fun q => if q = k then v else f q

/-- Fallibility of the worker's external effects for one delivery, plus its
deterministic pure collaborators: `convert` is the libreoffice conversion;
`render` is load + per-page watermark + save, returning the serialized bytes
and the page count. -/
structure WorkerEnv where
  step1Ok : Bool
  convert : Bytes → Except Unit Bytes
  render : Bytes → Except Unit (Bytes × Nat)
  uploadOk : Bool
  dbOk : Bool
  deleteOk : Bool
  failWriteOk : Bool

/-- The durable state the worker touches: the object storage and the one
`PartFile` row the job's `partFileId` denotes. -/
structure WorldState where
  storage : String → Option Bytes
  asset : PartFile

/-- Deterministic private destination of a rendered asset. -/
def destinationPathFor (partFileId : String) : String :=
  "/secured/" ++ partFileId ++ ".pdf"

/-- Step-8 title normalization: `path.parse(originalName || partFileId).name
+ '.pdf'`. -/
def workerTitleFor (originalName partFileId : String) : String :=
  pathParseName (if originalName = "" then partFileId else originalName) ++ ".pdf"

/-- The worker's try block, steps 1-9 of `pdfWorker` in order:
1 mark PROCESSING, 2 download staged source, 3 convert unless already PDF,
4-6 load/watermark/serialize, 7 upload to the private zone, 8 write COMPLETED
with the new key / title / page count, 9 best-effort delete of the staged
source (failure logged only). -/
def pdfWorkerSteps (env : WorkerEnv) (job : PdfJobData) (w : WorldState) :
    WorldState × Except WorkerErr Unit :=
  if ¬ env.step1Ok then (w, .error .statusUpdateFailed)
  else
    let w1 : WorldState := { w with asset := { w.asset with renderStatus := .PROCESSING } }
    -- step 1 only touches the DB row, so the download reads `w.storage`
    match w.storage job.sourceKey with
    | none => (w1, .error .sourceNotFound)
    | some sourceBytes =>
      let ext := inferExtension job.sourceMime job.originalName
      match (if ext ≠ ".pdf" then env.convert sourceBytes else .ok sourceBytes) with
      | .error _ => (w1, .error .convertFailed)
      | .ok pdfBytes =>
        match env.render pdfBytes with
        | .error _ => (w1, .error .renderFailed)
        | .ok (processedPdfBytes, pageCount) =>
          let destinationPath := destinationPathFor job.partFileId
          if ¬ env.uploadOk then (w1, .error .uploadFailed)
          else
            let w2 : WorldState := { w1 with
              storage := updateStore w1.storage destinationPath (some processedPdfBytes) }
            if ¬ env.dbOk then (w2, .error .dbUpdateFailed)
            else
              let w3 : WorldState := { w2 with asset := { w2.asset with
                renderStatus := .COMPLETED
                storageKey := destinationPath
                title := workerTitleFor job.originalName job.partFileId
                pageCount := pageCount } }
              let w4 : WorldState :=
                if env.deleteOk then
                  { w3 with storage := updateStore w3.storage job.sourceKey none }
                else w3
              (w4, .ok ())

/-- The whole worker handler: the try block plus the single top-level catch,
which best-effort marks the asset FAILED (a failure of that write is only
logged) and re-raises the original error to the queue. -/
def pdfWorkerRun (env : WorkerEnv) (job : PdfJobData) (w : WorldState) :
    WorldState × Except WorkerErr Unit :=
  match pdfWorkerSteps env job w with
  | (w', .ok u) => (w', .ok u)
  | (w', .error e) =>
    if env.failWriteOk then
      ({ w' with asset := { w'.asset with renderStatus := .FAILED } }, .error e)
    else
      (w', .error e)

/-- Independent account of which of steps 1-7 fails first for a given
delivery, following the claim's step list (status update, download,
conversion, watermark/serialize, upload, DB update); `none` when all
succeed. -/
def firstWorkerFailure (env : WorkerEnv) (job : PdfJobData) (w : WorldState) :
    Option WorkerErr :=
  if ¬ env.step1Ok then some .statusUpdateFailed
  else
    match w.storage job.sourceKey with
    | none => some .sourceNotFound
    | some sourceBytes =>
      match (if inferExtension job.sourceMime job.originalName ≠ ".pdf" then
              env.convert sourceBytes else .ok sourceBytes) with
      | .error _ => some .convertFailed
      | .ok pdfBytes =>
        match env.render pdfBytes with
        | .error _ => some .renderFailed
        | .ok _ =>
          if ¬ env.uploadOk then some .uploadFailed
          else if ¬ env.dbOk then some .dbUpdateFailed
          else none

/-- The chunk indices `{0, …, n-1}` as a set of integers. -/
def intRange (n : Nat) : Finset Int :=
  (Finset.range n).image (fun i : Nat => (i : Int))

/-- Reachable-state invariant of a chunked-upload session: every received
index is in range (enforced by `uploadChunk`'s index check) and a scratch
chunk file exists exactly for the received indices.  It holds for the state
`initUpload` creates and is preserved by `uploadChunk`. -/
def SessionInv (st : UploadState) : Prop :=
  (∀ i ∈ st.session.receivedChunks, 0 ≤ i ∧ i < (st.session.totalChunks : Int)) ∧
  (∀ i : Int, (st.tempFiles i).isSome ↔ i ∈ st.session.receivedChunks)

/-- The i-th chunk of a file split at the configured 5 MB boundary. -/
def splitChunk (file : Bytes) (i : Nat) : Bytes :=
  (file.drop (i * UPLOAD_LIMITS.CHUNK)).take UPLOAD_LIMITS.CHUNK

/-- Number of chunks of a file split at the configured boundary. -/
def numChunks (file : Bytes) : Nat :=
  ceilDiv file.length UPLOAD_LIMITS.CHUNK

/-- The indexed chunk list `[(0, chunk 0), …, (N-1, chunk N-1)]` a client
derives from a file. -/
def enumChunks (file : Bytes) : List (Int × Bytes) :=
  (List.range (numChunks file)).map (fun i : Nat => ((i : Int), splitChunk file i))

/-- The upload state right after `initUpload` for a file of the given
content: correct declared size and chunk count, empty received set, fresh
scratch directory. -/
def freshState (file : Bytes) (filename mime : String) (secure : Bool)
    (uploadId partId userId : String) : UploadState :=
  { session :=
      { uploadId := uploadId, filename := filename, fileSize := file.length
        mimeType := mime, totalChunks := numChunks file
        receivedChunks := ∅, partId := partId, isSecure := secure
        userId := userId }
    tempFiles := fun _ => none }

/-- Feed a list of `(index, bytes)` chunk uploads through `uploadChunk` in
order, stopping at the first rejection. -/
def applyChunks (st : UploadState) : List (Int × Bytes) → Except AppError UploadState
  | [] => .ok st
  | (i, b) :: rest =>
    match ChunkedUploadService.uploadChunk st
        { uploadId := st.session.uploadId, chunkIndex := i
          totalChunks := st.session.totalChunks, chunk := b } with
    | .error _e => .error _e
    | .ok (st', _, _) => applyChunks st' rest

/-- Whether `uploadChunk` accepts (does not throw on) the given input. -/
def acceptedChunk (st : UploadState) (input : ChunkUploadInput) : Bool :=
  match ChunkedUploadService.uploadChunk st input with
  | .ok _ => true
  | .error _ => false

/-- The spec's Asset invariant: the storage key is non-empty exactly when the
render status is COMPLETED. -/
def assetKeyInv (a : PartFile) : Prop :=
  a.storageKey ≠ "" ↔ a.renderStatus = RenderStatus.COMPLETED

/-! Concrete fixtures used by the witnesses and counterexamples below.  Each
world is built the way the ingestion path builds it, so the states the
counterexamples exhibit are reachable ones. -/

/-- A worker environment in which every external effect succeeds; the
render step reports 3 pages. -/
def envAllOk : WorkerEnv :=
  { step1Ok := true, convert := fun b => .ok b, render := fun b => .ok (b, 3)
    uploadOk := true, dbOk := true, deleteOk := true, failWriteOk := true }

/-- A worker environment whose private-zone upload (step 7) fails. -/
def envUploadFails : WorkerEnv :=
  { envAllOk with uploadOk := false }

/-- A freshly ingested secure asset row: PROCESSING with an empty storage
key, as both ingestion services create it. -/
def freshAsset (id partId name : String) : PartFile :=
  { id := id, partId := partId, title := name, displayName := some name
    type := "PDF", storageKey := "", renderStatus := .PROCESSING
    order := 1, isSecure := true, pageCount := 0 }

/-- A render job for asset `f4` whose source is staged as a PDF. -/
def jobC4 : PdfJobData :=
  { sourceKey := "/staging/pdf-input/f4/source.pdf"
    sourceMime := "application/pdf", originalName := "notes.pdf"
    partFileId := "f4", adminName := some "Dr. Manal" }

/-- World right after ingestion staged the source for `f4`. -/
def worldC4 : WorldState :=
  { storage := fun k => if k = "/staging/pdf-input/f4/source.pdf" then some [1, 2] else none
    asset := freshAsset "f4" "p4" "notes.pdf" }

/-- World after the first (fully successful) delivery for `f4`: asset
COMPLETED, staged source deleted by step 9. -/
def worldC4done : WorldState := (pdfWorkerRun envAllOk jobC4 worldC4).1

/-- A render job for asset `f5`. -/
def jobC5 : PdfJobData :=
  { sourceKey := "/staging/pdf-input/f5/source.pdf"
    sourceMime := "application/pdf", originalName := "lecture.pdf"
    partFileId := "f5", adminName := some "Dr. Manal" }

/-- World right after ingestion staged the source for `f5`. -/
def worldC5 : WorldState :=
  { storage := fun k => if k = "/staging/pdf-input/f5/source.pdf" then some [9, 9] else none
    asset := freshAsset "f5" "p5" "lecture.pdf" }

/-- World after the first (fully successful) delivery for `f5`. -/
def worldC5done : WorldState := (pdfWorkerRun envAllOk jobC5 worldC5).1

/-- A render job for asset `f6`. -/
def jobC6 : PdfJobData :=
  { sourceKey := "/staging/pdf-input/f6/source.pdf"
    sourceMime := "application/pdf", originalName := "deck.pdf"
    partFileId := "f6", adminName := some "Dr. Manal" }

/-- World right after ingestion staged the source for `f6`. -/
def worldC6 : WorldState :=
  { storage := fun k => if k = "/staging/pdf-input/f6/source.pdf" then some [3] else none
    asset := freshAsset "f6" "p6" "deck.pdf" }

/-- A render job for asset `f10`. -/
def jobC10 : PdfJobData :=
  { sourceKey := "/staging/pdf-input/f10/source.pdf"
    sourceMime := "application/pdf", originalName := "book.pdf"
    partFileId := "f10", adminName := some "Dr. Manal" }

/-- World right after ingestion staged the source for `f10`. -/
def worldC10 : WorldState :=
  { storage := fun k => if k = "/staging/pdf-input/f10/source.pdf" then some [8] else none
    asset := freshAsset "f10" "p10" "book.pdf" }

/-- World after the first (fully successful) delivery for `f10`:
COMPLETED with `pageCount = 3`. -/
def worldC10done : WorldState := (pdfWorkerRun envAllOk jobC10 worldC10).1

/-- World after a redelivery of the same job for `f10` (the staged source is
gone, so the run fails and the catch block marks the asset FAILED). -/
def worldC10redelivered : WorldState := (pdfWorkerRun envAllOk jobC10 worldC10done).1

/-- Read access as the course instructor. -/
def ctxInstructor : AccessCtx :=
  { isInstructor := true, isAdmin := false, courseIsFree := false
    enrollmentActive := none, lockIsLocked := false }

/-- The docx mime type. -/
def docxMime : String :=
  "application/vnd.openxmlformats-officedocument.wordprocessingml.document"

/-- A fully received single-chunk docx session whose caller asked for
direct publish (`isSecure = false`). -/
def sessionC3 : ChunkedUploadSession :=
  { uploadId := "u3", filename := "slides.docx", fileSize := 3
    mimeType := docxMime, totalChunks := 1, receivedChunks := {0}
    partId := "p3", isSecure := false, userId := "instr" }

/-- Upload state of `sessionC3` with its one chunk on disk. -/
def stC3 : UploadState :=
  { session := sessionC3
    tempFiles := fun i => if i = 0 then some [4, 5, 6] else none }

/-- Finalize input matching `sessionC3`. -/
def inputC3 : FinalizeUploadInput :=
  { uploadId := "u3", partId := "p3", isSecure := false }

/-- A docx multer file for the single-request path. -/
def fileDocxC3 : LessonUploadFile :=
  { mimetype := docxMime, originalname := "slides.docx", buffer := [4, 5, 6] }

/-- The init input of the spec's example scenario: 10 MB declared with one
declared chunk under a 5 MB chunk size. -/
def inputC7 : InitUploadInput :=
  { filename := "big.pdf", fileSize := 10000000, totalChunks := 1
    mimeType := "application/pdf", partId := "p7", isSecure := true }

/-- A two-chunk session (6 MB) with only chunk 0 received. -/
def sessionC2 : ChunkedUploadSession :=
  { uploadId := "u2", filename := "half.pdf", fileSize := 6 * 1024 * 1024
    mimeType := "application/pdf", totalChunks := 2, receivedChunks := {0}
    partId := "p2", isSecure := true, userId := "owner2" }

/-- Upload state of `sessionC2`: chunk 0 on disk, chunk 1 missing. -/
def stC2 : UploadState :=
  { session := sessionC2
    tempFiles := fun i => if i = 0 then some [7] else none }

/-- Finalize input matching `sessionC2`. -/
def inputC2 : FinalizeUploadInput :=
  { uploadId := "u2", partId := "p2", isSecure := true }

/-- A two-chunk session (6 MB) with nothing received yet. -/
def sessionC9 : ChunkedUploadSession :=
  { uploadId := "u9", filename := "big.pdf", fileSize := 6 * 1024 * 1024
    mimeType := "application/pdf", totalChunks := 2, receivedChunks := ∅
    partId := "p9", isSecure := true, userId := "owner9" }

/-- Upload state of `sessionC9` with an empty scratch dir. -/
def stC9 : UploadState :=
  { session := sessionC9, tempFiles := fun _ => none }

/-- A 3-byte non-last chunk for index 0 of `sessionC9` (the expected size of
a non-last chunk is the full 5 MB). -/
def inputC9 : ChunkUploadInput :=
  { uploadId := "u9", chunkIndex := 0, totalChunks := 2, chunk := [1, 2, 3] }

/-- The `PartFile` row created by an `uploadLessonPdf` call, whichever branch
it took. -/
def resultRecord : UploadLessonResult → PartFile
  | .queued _ rec _ _ => rec
  | .direct rec _ => rec

/-- A placeholder in-memory finalize result used only as the
unreachable-default of a computed fixture. -/
def dummyFinalizeResult : FinalizeResult :=
  { assembled := [], storageKey := "", assetId := ""
    record := freshAsset "x" "y" "z", enqueued := none, publicUpload := none }

/-- The computed result of the in-memory `finalizeUpload` on the `.docx`
direct-publish session `stC3`. -/
def rC3src : FinalizeResult :=
  match ChunkedUploadService.finalizeUpload "instr" stC3 inputC3 "f3" 1 with
  | .ok r => r
  | .error _ => dummyFinalizeResult

/-- A placeholder result used only as the unreachable-default of the
computed fixtures below. -/
def dummyRedisResult : FinalizeResultRedis :=
  { assembled := [], storageKey := "", assetId := ""
    record := freshAsset "x" "y" "z", enqueued := none
    stagedUpload := none, publicUpload := none }

/-- The computed result of the concrete `.docx` `uploadLessonPdf` call of the
C3 witness. -/
def resC3a : UploadLessonResult :=
  match UploadService.uploadLessonPdf "instr" "p3" fileDocxC3 none (some "false")
      true true "instr" 1 "f3a" with
  | .ok r => r
  | .error _ => .direct (freshAsset "x" "y" "z") ("", [])

/-- The computed result of the concrete `.docx` Redis-variant finalize of the
C3 witness. -/
def rRC3b : FinalizeResultRedis :=
  match ChunkedUploadService.finalizeUploadRedis "instr" stC3 inputC3 "f3b" 1 with
  | .ok r => r
  | .error _ => dummyRedisResult

/-! Helper lemmas. -/

/-- Membership in `intRange`. -/
theorem mem_intRange {i : Int} {n : Nat} : i ∈ intRange n ↔ 0 ≤ i ∧ i < (n : Int) := by
  simp only [intRange, Finset.mem_image, Finset.mem_range]
  constructor
  · rintro ⟨k, hk, rfl⟩
    exact ⟨Int.ofNat_nonneg k, by exact_mod_cast hk⟩
  · rintro ⟨h0, hn⟩
    exact ⟨i.toNat, by omega, by omega⟩

/-- `intRange n` has exactly `n` elements. -/
theorem card_intRange (n : Nat) : (intRange n).card = n := by
  rw [intRange, Finset.card_image_of_injective _ (fun a b h => by exact_mod_cast h)]
  exact Finset.card_range n

/-- Success shape of `uploadChunk` on a valid input: the scratch slot is
overwritten and the index inserted into the received set. -/
theorem uploadChunk_ok (st : UploadState) (input : ChunkUploadInput)
    (h1 : 0 ≤ input.chunkIndex)
    (h2 : input.chunkIndex < (st.session.totalChunks : Int))
    (h3 : input.chunk.length ≤ UPLOAD_LIMITS.CHUNK) :
    ChunkedUploadService.uploadChunk st input = .ok
      ({ session := { st.session with
            receivedChunks := insert input.chunkIndex st.session.receivedChunks }
         tempFiles := fun i =>
            if i = input.chunkIndex then some input.chunk else st.tempFiles i },
       (insert input.chunkIndex st.session.receivedChunks).card,
       st.session.totalChunks) := by
  unfold ChunkedUploadService.uploadChunk
  rw [if_neg (by omega), if_neg (by omega)]

/-- `assembleLoop` on indices whose chunk files all exist with known content
returns the concatenation in list order. -/
theorem assembleLoop_ok (tf : Int → Option Bytes) (g : Nat → Bytes) :
    ∀ l : List Nat, (∀ i ∈ l, tf (Int.ofNat i) = some (g i)) →
      assembleLoop tf l = .ok (l.map g).flatten := by
  intro l
  induction l with
  | nil => intro _; rfl
  | cons i rest ih =>
    intro h
    have hi := h i (List.mem_cons_self _ _)
    simp only [assembleLoop, readChunkFile, hi, ih (fun j hj => h j (List.mem_cons_of_mem _ hj)),
      List.map_cons, List.flatten_cons]

/-- `assembleLoop` succeeds as soon as every listed chunk file exists. -/
theorem assembleLoop_isOk (tf : Int → Option Bytes) :
    ∀ l : List Nat, (∀ i ∈ l, (tf (Int.ofNat i)).isSome) →
      ∃ b, assembleLoop tf l = .ok b := by
  intro l
  induction l with
  | nil => intro _; exact ⟨[], rfl⟩
  | cons i rest ih =>
    intro h
    obtain ⟨bi, hbi⟩ := Option.isSome_iff_exists.mp (h i (List.mem_cons_self _ _))
    obtain ⟨tl, htl⟩ := ih (fun j hj => h j (List.mem_cons_of_mem _ hj))
    exact ⟨bi ++ tl, by simp only [assembleLoop, readChunkFile, hbi, htl]⟩

/-- Splitting a positive length steps the ceiling division down by one
chunk. -/
theorem ceilDiv_pos_step (n C : Nat) (hC : 0 < C) (hn : 0 < n) :
    ceilDiv n C = ceilDiv (n - C) C + 1 := by
  unfold ceilDiv
  rcases le_or_lt n C with h | h
  · have hsub : n - C = 0 := by omega
    rw [hsub]
    have h0 : (0 + C - 1) / C = 0 := Nat.div_eq_of_lt (by omega)
    rw [h0]
    have hlo : 1 ≤ (n + C - 1) / C := (Nat.one_le_div_iff hC).mpr (by omega)
    have hhi : (n + C - 1) / C < 2 := Nat.div_lt_of_lt_mul (by omega)
    omega
  · have harith : n + C - 1 = (n - C + C - 1) + C := by omega
    rw [harith, Nat.add_div_right _ hC]

/-- Reassembling the chunk split of a file yields the file back. -/
theorem flatten_chunks (C : Nat) (hC : 0 < C) (file : List Nat) :
    ((List.range (ceilDiv file.length C)).map
      (fun i => (file.drop (i * C)).take C)).flatten = file := by
  generalize hn : file.length = n
  induction n using Nat.strong_induction_on generalizing file with
  | _ n ih =>
    rcases Nat.eq_zero_or_pos n with h0 | hpos
    · subst h0
      have hfile : file = [] := List.length_eq_zero.mp hn
      subst hfile
      have hz : ceilDiv 0 C = 0 := by
        unfold ceilDiv; exact Nat.div_eq_of_lt (by omega)
      simp [hz]
    · have hstep : ceilDiv n C = ceilDiv (n - C) C + 1 := ceilDiv_pos_step n C hC hpos
      rw [hstep, List.range_succ_eq_map, List.map_cons, List.flatten_cons, List.map_map]
      have hlen : (file.drop C).length = n - C := by rw [List.length_drop, hn]
      have htail := ih (n - C) (by omega) (file.drop C) hlen
      have hcomp :
          ((fun i => (file.drop (i * C)).take C) ∘ Nat.succ) =
            (fun i => ((file.drop C).drop (i * C)).take C) := by
        funext i
        simp only [Function.comp_apply]
        rw [List.drop_drop]
        congr 2
        rw [Nat.succ_mul]
        ring
      rw [hcomp, htail]
      simp only [Nat.zero_mul, List.drop_zero]
      exact List.take_append_drop C file

/-- Members of `enumChunks` are exactly the indexed split chunks. -/
theorem mem_enumChunks {file : Bytes} {p : Int × Bytes} (hp : p ∈ enumChunks file) :
    ∃ k, k < numChunks file ∧ p.1 = (k : Int) ∧ p.2 = splitChunk file k := by
  simp only [enumChunks, List.mem_map, List.mem_range] at hp
  obtain ⟨k, hk, hpk⟩ := hp
  exact ⟨k, hk, by rw [← hpk], by rw [← hpk]⟩

/-- Reassembling `splitChunk`s at the configured boundary yields the file. -/
theorem flatten_splitChunks (file : Bytes) :
    ((List.range (numChunks file)).map (fun k => splitChunk file k)).flatten = file :=
  flatten_chunks UPLOAD_LIMITS.CHUNK (by decide) file

/-- Running `uploadChunk` over any list of correctly-split chunks of a file
succeeds and leaves the scratch directory holding the chunk of every index
that occurs in the list, independent of the order in which they arrived. -/
theorem applyChunks_sound (file : Bytes) (l : List (Int × Bytes)) :
    ∀ st : UploadState,
      st.session.totalChunks = numChunks file →
      (∀ p ∈ l, p ∈ enumChunks file) →
      ∃ st', applyChunks st l = .ok st' ∧
        st'.session.receivedChunks =
          st.session.receivedChunks ∪ (l.map Prod.fst).toFinset ∧
        st'.session.totalChunks = st.session.totalChunks ∧
        st'.session.userId = st.session.userId ∧
        (∀ i : Int, st'.tempFiles i =
          if i ∈ l.map Prod.fst then some (splitChunk file i.toNat)
          else st.tempFiles i) := by
  induction l with
  | nil =>
    intro st _ _
    exact ⟨st, rfl, by simp, rfl, rfl, fun i => by simp⟩
  | cons p rest ih =>
    intro st htot hmem
    obtain ⟨i, b⟩ := p
    obtain ⟨k, hk, hik, hbk⟩ := mem_enumChunks (hmem (i, b) (List.mem_cons_self _ _))
    simp only at hik hbk
    have hlen : b.length ≤ UPLOAD_LIMITS.CHUNK := by
      rw [hbk]; exact List.length_take_le _ _
    have hup := uploadChunk_ok st
      { uploadId := st.session.uploadId, chunkIndex := i
        totalChunks := st.session.totalChunks, chunk := b }
      (by simp only [hik]; exact Int.ofNat_nonneg k)
      (by simp only [hik, htot]; exact_mod_cast hk) hlen
    obtain ⟨st', happ, hrec, htot', huid, htf⟩ :=
      ih { session := { st.session with
              receivedChunks := insert i st.session.receivedChunks }
           tempFiles := fun j => if j = i then some b else st.tempFiles j }
        htot (fun q hq => hmem q (List.mem_cons_of_mem _ hq))
    refine ⟨st', ?_, ?_, htot', huid, ?_⟩
    · simp only [applyChunks, hup, happ]
    · rw [hrec]
      simp only [List.map_cons, List.toFinset_cons]
      rw [Finset.insert_union, Finset.union_insert]
    · intro j
      have := htf j
      rw [this]
      by_cases hj1 : j ∈ rest.map Prod.fst
      · simp [hj1, List.map_cons]
      · by_cases hj2 : j = i
        · subst hj2
          simp only [hj1, if_false, if_pos rfl, List.map_cons, List.mem_cons, true_or,
            if_true, hbk, hik, Int.toNat_ofNat]
          exact ite_self _
        · simp [hj1, hj2, List.map_cons]

/-! Claim theorems. -/

/-- C1: for every file split at the configured 5 MB chunk boundary into
chunks `0..N-1` and every permutation of the order in which `uploadChunk`
receives those chunks, `finalizeUpload` succeeds and assembles the chunks by
ascending index, so the assembled byte stream is byte-identical to the
original file. -/
theorem chunk_assembly_order_independent
    (file : Bytes) (perm : List (Int × Bytes))
    (filename mime uploadId partId userId fileId : String) (secure : Bool)
    (nextOrder : Nat) (input : FinalizeUploadInput)
    (hperm : perm.Perm (enumChunks file)) :
    ∃ st' r,
      applyChunks (freshState file filename mime secure uploadId partId userId)
        perm = .ok st' ∧
      ChunkedUploadService.finalizeUpload userId st' input fileId nextOrder = .ok r ∧
      r.assembled = file := by
  obtain ⟨st', happ, hrec, htot, huid, htf⟩ :=
    applyChunks_sound file perm
      (freshState file filename mime secure uploadId partId userId) rfl
      (fun p hp => hperm.mem_iff.mp hp)
  have htotN : st'.session.totalChunks = numChunks file := htot
  have huidN : st'.session.userId = userId := huid
  have hidxmem : ∀ j : Int, j ∈ perm.map Prod.fst ↔
      ∃ k, k < numChunks file ∧ (k : Int) = j := by
    intro j
    rw [(hperm.map Prod.fst).mem_iff]
    simp [enumChunks, List.map_map, List.mem_map, List.mem_range]
  have hrecEq : st'.session.receivedChunks = intRange (numChunks file) := by
    rw [hrec]
    have hempty : (freshState file filename mime secure uploadId partId
        userId).session.receivedChunks = ∅ := rfl
    rw [hempty, Finset.empty_union]
    ext j
    rw [List.mem_toFinset, hidxmem, mem_intRange]
    constructor
    · rintro ⟨k, hk, rfl⟩
      exact ⟨Int.ofNat_nonneg k, by exact_mod_cast hk⟩
    · rintro ⟨h0, hn⟩
      exact ⟨j.toNat, by omega, by omega⟩
  have hcard : st'.session.receivedChunks.card = numChunks file := by
    rw [hrecEq, card_intRange]
  have htfful : ∀ k : Nat, k < numChunks file →
      st'.tempFiles (Int.ofNat k) = some (splitChunk file k) := by
    intro k hk
    rw [htf]
    have hmem : (Int.ofNat k) ∈ perm.map Prod.fst :=
      (hidxmem (Int.ofNat k)).mpr ⟨k, hk, rfl⟩
    rw [if_pos hmem]
    rfl
  have hasm : assembleChunks st'.tempFiles st'.session.totalChunks = .ok file := by
    unfold assembleChunks
    rw [htotN,
      assembleLoop_ok st'.tempFiles (fun k => splitChunk file k)
        (List.range (numChunks file)) (fun k hk => htfful k (List.mem_range.mp hk)),
      flatten_splitChunks]
  refine ⟨st', ?_⟩
  unfold ChunkedUploadService.finalizeUpload
  rw [if_neg (by rw [huidN]; exact fun h => h rfl),
    if_neg (by rw [hcard, htotN]; exact fun h => h rfl), hasm]
  by_cases hs : st'.session.isSecure = true
  · rw [hs]
    exact ⟨_, happ, rfl, rfl⟩
  · rw [Bool.not_eq_true] at hs
    rw [hs]
    exact ⟨_, happ, rfl, rfl⟩

/-- C1 witness: a concrete one-chunk file uploaded in its (single-element)
arrival order assembles back to itself through finalize. -/
theorem chunk_assembly_order_independent_witness :
    ∃ st' r,
      applyChunks (freshState [1, 2, 3] "doc.pdf" "application/pdf" true "u1" "p1" "owner1")
        (enumChunks [1, 2, 3]) = .ok st' ∧
      ChunkedUploadService.finalizeUpload "owner1" st'
        ⟨"u1", "p1", true⟩ "fid1" 1 = .ok r ∧
      r.assembled = [1, 2, 3] :=
  chunk_assembly_order_independent [1, 2, 3] (enumChunks [1, 2, 3]) "doc.pdf"
    "application/pdf" "u1" "p1" "owner1" "fid1" true 1 ⟨"u1", "p1", true⟩
    (List.Perm.refl _)

/-- C2: for a session with `totalChunks = N` satisfying the reachable-state
invariant, `finalizeUpload` called by the session owner succeeds iff the
received-index set equals `{0,…,N-1}`; with a chunk missing it fails with an
InvalidRequest error reporting the true received count out of `N`, and a
non-owner caller gets Forbidden. -/
theorem finalize_completeness
    (st : UploadState) (callerId : String) (input : FinalizeUploadInput)
    (fileId : String) (nextOrder : Nat) (hinv : SessionInv st) :
    (callerId ≠ st.session.userId →
      ChunkedUploadService.finalizeUpload callerId st input fileId nextOrder =
        .error ⟨"Access denied", 403⟩) ∧
    (callerId = st.session.userId →
      ((∃ r, ChunkedUploadService.finalizeUpload callerId st input fileId
          nextOrder = .ok r) ↔
        st.session.receivedChunks = intRange st.session.totalChunks) ∧
      (st.session.receivedChunks ≠ intRange st.session.totalChunks →
        ChunkedUploadService.finalizeUpload callerId st input fileId nextOrder =
          .error ⟨"Missing chunks. Received " ++
            toString st.session.receivedChunks.card ++ "/" ++
            toString st.session.totalChunks, 400⟩)) := by
  have hsub : st.session.receivedChunks ⊆ intRange st.session.totalChunks :=
    fun i hi => mem_intRange.mpr (hinv.1 i hi)
  have hcard_iff : st.session.receivedChunks.card = st.session.totalChunks ↔
      st.session.receivedChunks = intRange st.session.totalChunks := by
    constructor
    · intro hc
      exact Finset.eq_of_subset_of_card_le hsub (by rw [card_intRange, hc])
    · intro hs
      rw [hs, card_intRange]
  constructor
  · intro hne
    unfold ChunkedUploadService.finalizeUpload
    rw [if_pos (fun h => hne h.symm)]
  · intro heq
    constructor
    · constructor
      · rintro ⟨r, hr⟩
        by_contra hne
        have hcardne : st.session.receivedChunks.card ≠ st.session.totalChunks :=
          fun hc => hne (hcard_iff.mp hc)
        unfold ChunkedUploadService.finalizeUpload at hr
        rw [if_neg (fun h => h heq.symm), if_pos hcardne] at hr
        exact Except.noConfusion hr
      · intro hset
        have hcard : st.session.receivedChunks.card = st.session.totalChunks :=
          hcard_iff.mpr hset
        have hex : ∀ i ∈ List.range st.session.totalChunks,
            (st.tempFiles (Int.ofNat i)).isSome := by
          intro i hi
          rw [hinv.2, hset, mem_intRange]
          have hi2 := List.mem_range.mp hi
          exact ⟨Int.ofNat_nonneg i,
            show (i : Int) < (st.session.totalChunks : Int) by omega⟩
        obtain ⟨b, hb⟩ := assembleLoop_isOk st.tempFiles
          (List.range st.session.totalChunks) hex
        unfold ChunkedUploadService.finalizeUpload
        rw [if_neg (fun h => h heq.symm),
          if_neg (fun h => h hcard)]
        have hasm : assembleChunks st.tempFiles st.session.totalChunks = .ok b := hb
        rw [hasm]
        by_cases hs : st.session.isSecure = true
        · rw [hs]
          exact ⟨_, rfl⟩
        · rw [Bool.not_eq_true] at hs
          rw [hs]
          exact ⟨_, rfl⟩
    · intro hne
      have hcardne : st.session.receivedChunks.card ≠ st.session.totalChunks :=
        fun hc => hne (hcard_iff.mp hc)
      unfold ChunkedUploadService.finalizeUpload
      rw [if_neg (fun h => h heq.symm), if_pos hcardne]

/-- The session invariant holds for a fresh session and is preserved by every
accepted `uploadChunk`, so it holds in every reachable session state. -/
theorem uploadChunk_preserves_inv (st : UploadState) (input : ChunkUploadInput)
    (st' : UploadState) (r t : Nat) (hinv : SessionInv st)
    (h : ChunkedUploadService.uploadChunk st input = .ok (st', r, t)) :
    SessionInv st' := by
  unfold ChunkedUploadService.uploadChunk at h
  dsimp only [] at h
  split_ifs at h with h1 h2
  push_neg at h1
  injection h with h3
  have hfst := congrArg Prod.fst h3
  simp only at hfst
  have hsess : st'.session = { st.session with
      receivedChunks := insert input.chunkIndex st.session.receivedChunks } := by
    rw [← hfst]
  have htf : st'.tempFiles = fun i =>
      if i = input.chunkIndex then some input.chunk else st.tempFiles i := by
    rw [← hfst]
  have htot : st'.session.totalChunks = st.session.totalChunks := by rw [hsess]
  constructor
  · intro i hi
    rw [hsess] at hi
    simp only [Finset.mem_insert] at hi
    rw [htot]
    rcases hi with rfl | hi
    · exact ⟨h1.1, h1.2⟩
    · exact hinv.1 i hi
  · intro i
    rw [hsess, htf]
    by_cases hie : i = input.chunkIndex
    · simp [hie]
    · simp only [hie, if_false, Finset.mem_insert, hie, false_or]
      exact hinv.2 i

/-- C2 witness: a two-chunk session with only chunk 0 received satisfies the
invariant; the owner's finalize reports `1/2` received with status 400, and a
non-owner caller is rejected with 403. -/
theorem finalize_completeness_witness :
    SessionInv stC2 ∧
    ChunkedUploadService.finalizeUpload "owner2" stC2 inputC2 "f2" 1 =
      .error ⟨"Missing chunks. Received 1/2", 400⟩ ∧
    ChunkedUploadService.finalizeUpload "intruder" stC2 inputC2 "f2" 1 =
      .error ⟨"Access denied", 403⟩ := by
  have hinv : SessionInv stC2 := by
    constructor
    · intro i hi
      have h0 : i = 0 := by simpa [stC2, sessionC2] using hi
      subst h0
      constructor
      · exact le_refl 0
      · show (0 : Int) < ((2 : Nat) : Int)
        omega
    · intro i
      by_cases h : i = (0 : Int) <;> simp [stC2, sessionC2, h]
  refine ⟨hinv, ?_, ?_⟩
  · have h2 := ((finalize_completeness stC2 "owner2" inputC2 "f2" 1 hinv).2 rfl).2
      (by decide)
    have hmsg : ("Missing chunks. Received " ++
        toString stC2.session.receivedChunks.card ++ "/" ++
        toString stC2.session.totalChunks) = "Missing chunks. Received 1/2" := by
      decide
    rw [hmsg] at h2
    exact h2
  · exact (finalize_completeness stC2 "intruder" inputC2 "f2" 1 hinv).1 (by decide)

/-- C3 (amended): the single-request `uploadLessonPdf` and the Redis-variant
chunked finalize force every non-PDF source onto the secure path — whatever
the caller requested, a successful run yields an asset created PROCESSING
with `isSecure = true`, an empty storage key and a render job enqueued; the
in-memory chunked finalize does not (see the counterexample). -/
theorem nonPdf_forced_secure
    (userId lessonId : String) (file : LessonUploadFile) (title : Option String)
    (isSecureStr : Option String) (configOk partExists : Bool)
    (partInstructorId : String) (nextOrder : Nat) (fileId : String)
    (res : UploadLessonResult)
    (stR : UploadState) (inputR : FinalizeUploadInput) (fileIdR : String)
    (nextOrderR : Nat) (rR : FinalizeResultRedis) :
    (file.mimetype ≠ "application/pdf" →
      UploadService.uploadLessonPdf userId lessonId file title isSecureStr
        configOk partExists partInstructorId nextOrder fileId = .ok res →
      ∃ id rec staged jobd, res = .queued id rec staged jobd ∧
        rec.renderStatus = .PROCESSING ∧ rec.isSecure = true ∧
        rec.storageKey = "") ∧
    (stR.session.mimeType ≠ "application/pdf" →
      ChunkedUploadService.finalizeUploadRedis userId stR inputR fileIdR
        nextOrderR = .ok rR →
      rR.record.renderStatus = .PROCESSING ∧ rR.record.isSecure = true ∧
      rR.record.storageKey = "" ∧ rR.enqueued.isSome = true) := by
  constructor
  · intro hmime hok
    unfold UploadService.uploadLessonPdf at hok
    split_ifs at hok with hcfg hallow hpart hinstr
    dsimp only [] at hok
    rw [decide_eq_true hmime, Bool.or_true, if_pos rfl] at hok
    revert hok
    cases hext : UploadService.getExtension file.mimetype with
    | error e => intro hok; exact Except.noConfusion hok
    | ok ext =>
      intro hok
      dsimp only [] at hok
      injection hok with hres
      exact ⟨_, _, _, _, hres.symm, rfl, rfl, rfl⟩
  · intro hmime hok
    unfold ChunkedUploadService.finalizeUploadRedis at hok
    dsimp only [] at hok
    split_ifs at hok with howner hcount hsec
    · revert hok
      cases hasm : assembleChunks stR.tempFiles stR.session.totalChunks with
      | error e => intro hok; exact Except.noConfusion hok
      | ok fileBuffer =>
        intro hok
        injection hok with hres
        rw [← hres]
        exact ⟨rfl, rfl, rfl, rfl⟩
    · exact absurd (Or.inr hmime) hsec

/-- C3 counterexample: the in-memory chunked `finalizeUpload` (the variant
wired in `src/modules/upload/`) routes a fully received `.docx` session whose
caller requested `secure = false` onto the direct-publish path: the asset row
is created COMPLETED with `isSecure = false` and no render job is enqueued. -/
theorem nonPdf_forced_secure_counterexample :
    ChunkedUploadService.finalizeUpload "instr" stC3 inputC3 "f3" 1 =
      .ok rC3src ∧
    rC3src.record.renderStatus = .COMPLETED ∧
    rC3src.record.isSecure = false ∧
    rC3src.enqueued = none :=
  ⟨rfl, rfl, rfl, rfl⟩

/-- C3 witness: a concrete `.docx` source with `secure = "false"` still takes
the secure path through `uploadLessonPdf` and through the Redis-variant
finalize. -/
theorem nonPdf_forced_secure_witness :
    (∃ id rec staged jobd,
      resC3a = UploadLessonResult.queued id rec staged jobd ∧
      rec.renderStatus = .PROCESSING ∧ rec.isSecure = true ∧
      rec.storageKey = "") ∧
    (rRC3b.record.renderStatus = .PROCESSING ∧ rRC3b.record.isSecure = true ∧
      rRC3b.record.storageKey = "" ∧ rRC3b.enqueued.isSome = true) := by
  have h := nonPdf_forced_secure "instr" "p3" fileDocxC3 none (some "false") true
    true "instr" 1 "f3a" resC3a stC3 inputC3 "f3b" 1 rRC3b
  exact ⟨h.1 (by decide) rfl, h.2 (by decide) rfl⟩

/-- A `/public/...` storage key is never the empty string. -/
theorem publicKey_ne_empty (a b c : String) :
    "/public/" ++ a ++ "/" ++ b ++ "/" ++ c ≠ "" := by
  intro h
  have h2 := congrArg String.length h
  simp [String.length_append] at h2
  exact absurd h2.1.1.1.1.1 (by decide)

/-- The worker's deterministic private destination is never empty. -/
theorem destinationPath_ne_empty (id : String) : destinationPathFor id ≠ "" := by
  intro h
  have h2 := congrArg String.length h
  simp [destinationPathFor, String.length_append] at h2
  exact absurd h2.1.1 (by decide)

/-- Case shape of the worker's try block: it either completes, rewriting the
asset to COMPLETED with the private destination key, or fails leaving the
asset either untouched (step 1 failed) or merely re-marked PROCESSING. -/
theorem pdfWorkerSteps_shape (env : WorkerEnv) (job : PdfJobData) (w : WorldState) :
    (∃ pc st', pdfWorkerSteps env job w = (st', .ok ()) ∧
      st'.asset = { w.asset with
        renderStatus := .COMPLETED
        storageKey := destinationPathFor job.partFileId
        title := workerTitleFor job.originalName job.partFileId
        pageCount := pc }) ∨
    (∃ e st', pdfWorkerSteps env job w = (st', .error e) ∧
      (st'.asset = w.asset ∨
        st'.asset = { w.asset with renderStatus := .PROCESSING })) := by
  unfold pdfWorkerSteps
  dsimp only []
  repeat' split
  all_goals first
    | exact Or.inl ⟨_, _, rfl, rfl⟩
    | exact Or.inr ⟨_, _, rfl, Or.inl rfl⟩
    | exact Or.inr ⟨_, _, rfl, Or.inr rfl⟩

/-- C4 (amended): the key-iff-COMPLETED invariant holds for every record
created by the single-request ingestion path and for the asset at the end of
any worker delivery that starts from an asset with an empty storage key and a
status other than COMPLETED (i.e. every first delivery); a redelivery to an
already COMPLETED asset violates it (see the counterexample). -/
theorem storageKey_iff_completed
    (userId lessonId : String) (file : LessonUploadFile) (title : Option String)
    (isSecureStr : Option String) (configOk partExists : Bool)
    (partInstructorId : String) (nextOrder : Nat) (fileId : String)
    (res : UploadLessonResult)
    (env : WorkerEnv) (job : PdfJobData) (w : WorldState) :
    (UploadService.uploadLessonPdf userId lessonId file title isSecureStr
        configOk partExists partInstructorId nextOrder fileId = .ok res →
      assetKeyInv (resultRecord res)) ∧
    (w.asset.storageKey = "" → w.asset.renderStatus ≠ .COMPLETED →
      assetKeyInv (pdfWorkerRun env job w).1.asset) := by
  constructor
  · intro hok
    unfold UploadService.uploadLessonPdf at hok
    split_ifs at hok with hcfg hallow hpart hinstr
    dsimp only [] at hok
    revert hok
    split
    · cases hext : UploadService.getExtension file.mimetype with
      | error e => intro hok; exact Except.noConfusion hok
      | ok ext =>
        intro hok
        dsimp only [] at hok
        injection hok with hres
        rw [← hres]
        unfold assetKeyInv resultRecord
        constructor
        · intro hne; exact absurd rfl hne
        · intro hco; exact RenderStatus.noConfusion hco
    · intro hok
      injection hok with hres
      rw [← hres]
      unfold assetKeyInv resultRecord
      constructor
      · intro _; rfl
      · intro _; exact publicKey_ne_empty lessonId fileId file.originalname
  · intro hkey hst
    rcases pdfWorkerSteps_shape env job w with
      ⟨pc, st', hsteps, hasset⟩ | ⟨e, st', hsteps, hasset⟩
    · unfold pdfWorkerRun
      rw [hsteps]
      unfold assetKeyInv
      rw [hasset]
      constructor
      · intro _; rfl
      · intro _; exact destinationPath_ne_empty job.partFileId
    · unfold pdfWorkerRun
      rw [hsteps]
      have hsk : st'.asset.storageKey = "" := by
        rcases hasset with h | h <;> rw [h] <;> exact hkey
      have hsr : st'.asset.renderStatus ≠ .COMPLETED := by
        rcases hasset with h | h <;> rw [h]
        · exact hst
        · intro hco; exact RenderStatus.noConfusion hco
      by_cases hfw : env.failWriteOk = true
      · rw [hfw]
        unfold assetKeyInv
        constructor
        · intro hne; exact absurd hsk hne
        · intro hco; exact RenderStatus.noConfusion hco
      · rw [Bool.not_eq_true] at hfw
        rw [hfw]
        unfold assetKeyInv
        constructor
        · intro hne; exact absurd hsk hne
        · intro hco; exact absurd hco hsr

/-- C4 counterexample: redelivering the render job of an already COMPLETED
asset (its staged source was deleted by step 9 of the first delivery) marks
the asset FAILED while its storage key stays `/secured/f4.pdf`, violating the
key-iff-COMPLETED invariant on a reachable lifecycle state. -/
theorem storageKey_iff_completed_counterexample :
    worldC4done.asset.renderStatus = .COMPLETED ∧
    worldC4done.asset.storageKey = "/secured/f4.pdf" ∧
    ¬ assetKeyInv (pdfWorkerRun envAllOk jobC4 worldC4done).1.asset := by
  refine ⟨rfl, rfl, ?_⟩
  intro hinv
  have h2 : (pdfWorkerRun envAllOk jobC4 worldC4done).1.asset.renderStatus =
      .FAILED := rfl
  have h3 := hinv.mp (by decide)
  rw [h2] at h3
  exact RenderStatus.noConfusion h3

/-- C4 witness: the invariant holds for the record of a concrete
single-request upload and for the final asset of a concrete first delivery
whose upload step fails (FAILED with the key still empty). -/
theorem storageKey_iff_completed_witness :
    assetKeyInv (resultRecord resC3a) ∧
    assetKeyInv (pdfWorkerRun envUploadFails jobC4 worldC4).1.asset :=
  ⟨(storageKey_iff_completed "instr" "p3" fileDocxC3 none (some "false") true true
      "instr" 1 "f3a" resC3a envUploadFails jobC4 worldC4).1 rfl,
   (storageKey_iff_completed "instr" "p3" fileDocxC3 none (some "false") true true
      "instr" 1 "f3a" resC3a envUploadFails jobC4 worldC4).2 rfl (by decide)⟩

/-- C5: evaluating the worker at the claim's redelivery scenario — the same
job data delivered again for asset `f5`, already COMPLETED, after the first
delivery's step 9 deleted the staged source — shows the re-run failing with
SOURCE_NOT_FOUND and fatally transitioning the COMPLETED asset to FAILED,
contradicting the claimed redelivery safety. -/
theorem redelivery_not_idempotent :
    worldC5done.asset.renderStatus = .COMPLETED ∧
    worldC5done.storage jobC5.sourceKey = none ∧
    (pdfWorkerRun envAllOk jobC5 worldC5done).2 = .error .sourceNotFound ∧
    (pdfWorkerRun envAllOk jobC5 worldC5done).1.asset.renderStatus = .FAILED :=
  ⟨rfl, rfl, rfl, rfl⟩

/-- The try block's outcome agrees with the independent step-by-step account
`firstWorkerFailure`: no failing step means the block ends `.ok` with the
asset COMPLETED, and otherwise it ends with exactly the first failing step's
error. -/
theorem pdfWorkerSteps_vs_first (env : WorkerEnv) (job : PdfJobData) (w : WorldState) :
    (firstWorkerFailure env job w = none →
      ∃ st', pdfWorkerSteps env job w = (st', .ok ()) ∧
        st'.asset.renderStatus = .COMPLETED) ∧
    (∀ e, firstWorkerFailure env job w = some e →
      ∃ st', pdfWorkerSteps env job w = (st', .error e)) := by
  by_cases h1 : env.step1Ok = true
  case neg =>
    have hf : firstWorkerFailure env job w = some .statusUpdateFailed := by
      unfold firstWorkerFailure
      rw [if_pos h1]
    have hs : ∃ st', pdfWorkerSteps env job w =
        (st', .error .statusUpdateFailed) := by
      unfold pdfWorkerSteps
      rw [if_pos h1]
      exact ⟨_, rfl⟩
    rw [hf]
    exact ⟨fun h => Option.noConfusion h, fun e he => by cases he; exact hs⟩
  case pos =>
    cases hdl : w.storage job.sourceKey with
    | none =>
      have hf : firstWorkerFailure env job w = some .sourceNotFound := by
        unfold firstWorkerFailure
        rw [if_neg (not_not_intro h1), hdl]
      have hs : ∃ st', pdfWorkerSteps env job w = (st', .error .sourceNotFound) := by
        unfold pdfWorkerSteps
        try dsimp only []
        rw [if_neg (not_not_intro h1), hdl]
        exact ⟨_, rfl⟩
      rw [hf]
      exact ⟨fun h => Option.noConfusion h, fun e he => by cases he; exact hs⟩
    | some sourceBytes =>
      cases hcv : (if inferExtension job.sourceMime job.originalName ≠ ".pdf" then
          env.convert sourceBytes else .ok sourceBytes) with
      | error u =>
        have hf : firstWorkerFailure env job w = some .convertFailed := by
          unfold firstWorkerFailure
          rw [if_neg (not_not_intro h1), hdl]
          try dsimp only []
          rw [hcv]
        have hs : ∃ st', pdfWorkerSteps env job w = (st', .error .convertFailed) := by
          unfold pdfWorkerSteps
          try dsimp only []
          rw [if_neg (not_not_intro h1), hdl]
          try dsimp only []
          rw [hcv]
          exact ⟨_, rfl⟩
        rw [hf]
        exact ⟨fun h => Option.noConfusion h, fun e he => by cases he; exact hs⟩
      | ok pdfBytes =>
        cases hrd : env.render pdfBytes with
        | error u =>
          have hf : firstWorkerFailure env job w = some .renderFailed := by
            unfold firstWorkerFailure
            rw [if_neg (not_not_intro h1), hdl]
            try dsimp only []
            rw [hcv]
            try dsimp only []
            rw [hrd]
          have hs : ∃ st', pdfWorkerSteps env job w = (st', .error .renderFailed) := by
            unfold pdfWorkerSteps
            try dsimp only []
            rw [if_neg (not_not_intro h1), hdl]
            try dsimp only []
            rw [hcv]
            try dsimp only []
            rw [hrd]
            exact ⟨_, rfl⟩
          rw [hf]
          exact ⟨fun h => Option.noConfusion h, fun e he => by cases he; exact hs⟩
        | ok pr =>
          obtain ⟨processed, pageCount⟩ := pr
          by_cases h7 : env.uploadOk = true
          case neg =>
            have hf : firstWorkerFailure env job w = some .uploadFailed := by
              unfold firstWorkerFailure
              rw [if_neg (not_not_intro h1), hdl]
              try dsimp only []
              rw [hcv]
              try dsimp only []
              rw [hrd]
              try dsimp only []
              rw [if_pos h7]
            have hs : ∃ st', pdfWorkerSteps env job w = (st', .error .uploadFailed) := by
              unfold pdfWorkerSteps
              try dsimp only []
              rw [if_neg (not_not_intro h1), hdl]
              try dsimp only []
              rw [hcv]
              try dsimp only []
              rw [hrd]
              try dsimp only []
              rw [if_pos h7]
              exact ⟨_, rfl⟩
            rw [hf]
            exact ⟨fun h => Option.noConfusion h, fun e he => by cases he; exact hs⟩
          case pos =>
            by_cases h8 : env.dbOk = true
            case neg =>
              have hf : firstWorkerFailure env job w = some .dbUpdateFailed := by
                unfold firstWorkerFailure
                rw [if_neg (not_not_intro h1), hdl]
                try dsimp only []
                rw [hcv]
                try dsimp only []
                rw [hrd]
                try dsimp only []
                rw [if_neg (not_not_intro h7), if_pos h8]
              have hs : ∃ st', pdfWorkerSteps env job w =
                  (st', .error .dbUpdateFailed) := by
                unfold pdfWorkerSteps
                try dsimp only []
                rw [if_neg (not_not_intro h1), hdl]
                try dsimp only []
                rw [hcv]
                try dsimp only []
                rw [hrd]
                try dsimp only []
                rw [if_neg (not_not_intro h7), if_pos h8]
                exact ⟨_, rfl⟩
              rw [hf]
              exact ⟨fun h => Option.noConfusion h, fun e he => by cases he; exact hs⟩
            case pos =>
              have hf : firstWorkerFailure env job w = none := by
                unfold firstWorkerFailure
                rw [if_neg (not_not_intro h1), hdl]
                try dsimp only []
                rw [hcv]
                try dsimp only []
                rw [hrd]
                try dsimp only []
                rw [if_neg (not_not_intro h7), if_neg (not_not_intro h8)]
              have hs : ∃ st', pdfWorkerSteps env job w = (st', .ok ()) := by
                unfold pdfWorkerSteps
                try dsimp only []
                rw [if_neg (not_not_intro h1), hdl]
                try dsimp only []
                rw [hcv]
                try dsimp only []
                rw [hrd]
                try dsimp only []
                rw [if_neg (not_not_intro h7), if_neg (not_not_intro h8)]
                exact ⟨_, rfl⟩
              rw [hf]
              refine ⟨fun _ => ?_, fun e he => Option.noConfusion he⟩
              obtain ⟨st', hst⟩ := hs
              rcases pdfWorkerSteps_shape env job w with
                ⟨pc, st2, hsteps2, hasset⟩ | ⟨e2, st2, hsteps2, _⟩
              · rw [hst] at hsteps2
                have hfst := congrArg Prod.fst hsteps2
                simp only at hfst
                refine ⟨st', hst, ?_⟩
                rw [hfst, hasset]
              · rw [hst] at hsteps2
                have hsnd := congrArg Prod.snd hsteps2
                simp only at hsnd
                exact Except.noConfusion hsnd

/-- C6: the worker run succeeds exactly when none of steps 1-7 fails; on the
first failure the original error is re-raised unchanged to the queue after
the single top-level catch marks the asset FAILED (best-effort: when even
that write fails, the world is left exactly as the try block left it and the
failure is only logged). -/
theorem worker_failure_handling (env : WorkerEnv) (job : PdfJobData) (w : WorldState) :
    (firstWorkerFailure env job w = none →
      (pdfWorkerRun env job w).2 = .ok () ∧
      (pdfWorkerRun env job w).1.asset.renderStatus = .COMPLETED) ∧
    (∀ e, firstWorkerFailure env job w = some e →
      (pdfWorkerRun env job w).2 = .error e ∧
      (env.failWriteOk = true →
        (pdfWorkerRun env job w).1.asset.renderStatus = .FAILED) ∧
      (env.failWriteOk = false →
        (pdfWorkerRun env job w).1 = (pdfWorkerSteps env job w).1)) := by
  obtain ⟨hok, herr⟩ := pdfWorkerSteps_vs_first env job w
  constructor
  · intro hnone
    obtain ⟨st', hsteps, hstat⟩ := hok hnone
    have hrun : pdfWorkerRun env job w = (st', .ok ()) := by
      unfold pdfWorkerRun
      rw [hsteps]
    rw [hrun]
    exact ⟨rfl, hstat⟩
  · intro e he
    obtain ⟨st', hsteps⟩ := herr e he
    have hrun : pdfWorkerRun env job w =
        (if env.failWriteOk = true then
          ({ st' with asset := { st'.asset with renderStatus := .FAILED } },
            .error e)
        else (st', .error e)) := by
      unfold pdfWorkerRun
      rw [hsteps]
    refine ⟨?_, ?_, ?_⟩
    · rw [hrun]
      split <;> rfl
    · intro hfw
      rw [hrun, if_pos hfw]
    · intro hfw
      rw [hrun, hsteps, if_neg (by rw [hfw]; exact Bool.false_ne_true)]

/-- C6 witness: with a failing step-7 upload, the run re-raises UPLOAD_FAILED
and the asset ends FAILED. -/
theorem worker_failure_handling_witness :
    firstWorkerFailure envUploadFails jobC6 worldC6 = some .uploadFailed ∧
    (pdfWorkerRun envUploadFails jobC6 worldC6).2 = .error .uploadFailed ∧
    (pdfWorkerRun envUploadFails jobC6 worldC6).1.asset.renderStatus = .FAILED := by
  have h := (worker_failure_handling envUploadFails jobC6 worldC6).2
    WorkerErr.uploadFailed rfl
  exact ⟨rfl, h.1, h.2.1 rfl⟩

/-- C7: `initUpload` fails with an InvalidRequest (status 400) error exactly
when the declared size exceeds the 500 MB hard maximum or the declared chunk
count differs from `ceil(fileSize / 5 MB)`; in particular the spec's example
(10,000,000 bytes declared as a single chunk) is rejected because the
expected chunk count is 2. -/
theorem initUpload_invalid_request
    (userId : String) (input : InitUploadInput) (partExists : Bool)
    (partInstructorId : String) (userRole : Option String) (uploadId : String) :
    ((∃ e, ChunkedUploadService.initUpload userId input partExists
        partInstructorId userRole uploadId = .error e ∧ e.status = 400) ↔
      (UPLOAD_LIMITS.MAX_TOTAL_FILE < input.fileSize ∨
        input.totalChunks ≠ ceilDiv input.fileSize UPLOAD_LIMITS.CHUNK)) ∧
    (ChunkedUploadService.initUpload "u7" inputC7 true "u7" none "id7" =
        .error ⟨"Invalid chunk count", 400⟩ ∧
      ceilDiv inputC7.fileSize UPLOAD_LIMITS.CHUNK = 2) := by
  constructor
  · constructor
    · rintro ⟨e, he, hstat⟩
      by_contra hno
      push_neg at hno
      obtain ⟨hsize, hcount⟩ := hno
      unfold ChunkedUploadService.initUpload at he
      rw [if_neg (by omega)] at he
      dsimp only [] at he
      rw [if_neg (not_not_intro hcount)] at he
      split_ifs at he with hp hq
      all_goals
        first
          | exact Except.noConfusion he
          | (injection he with he2
             rw [← he2] at hstat
             exact absurd hstat (by decide))
    · intro hor
      unfold ChunkedUploadService.initUpload
      by_cases hsize : UPLOAD_LIMITS.MAX_TOTAL_FILE < input.fileSize
      · rw [if_pos hsize]
        exact ⟨_, rfl, rfl⟩
      · have hcount : input.totalChunks ≠ ceilDiv input.fileSize UPLOAD_LIMITS.CHUNK :=
          hor.resolve_left hsize
        rw [if_neg hsize]
        dsimp only []
        rw [if_pos hcount]
        exact ⟨_, rfl, rfl⟩
  · exact ⟨rfl, by decide⟩

/-- C7 witness: the spec's example input produces a 400-class error through
the general characterization. -/
theorem initUpload_invalid_request_witness :
    ∃ e, ChunkedUploadService.initUpload "u7" inputC7 true "u7" none "id7" =
      .error e ∧ e.status = 400 :=
  (initUpload_invalid_request "u7" inputC7 true "u7" none "id7").1.mpr
    (Or.inr (by decide))

/-- C8: `uploadChunk` is idempotent per index: re-uploading a valid index `k`
with different bytes succeeds, overwrites the scratch slot (the second bytes
win), and leaves the received set — hence the reported received count —
unchanged. -/
theorem uploadChunk_idempotent
    (st : UploadState) (k : Int) (b1 b2 : Bytes)
    (h0 : 0 ≤ k) (h1 : k < (st.session.totalChunks : Int))
    (hb1 : b1.length ≤ UPLOAD_LIMITS.CHUNK)
    (hb2 : b2.length ≤ UPLOAD_LIMITS.CHUNK) :
    ∃ st1 r1 st2 r2,
      ChunkedUploadService.uploadChunk st
        { uploadId := st.session.uploadId, chunkIndex := k
          totalChunks := st.session.totalChunks, chunk := b1 } =
        .ok (st1, r1, st.session.totalChunks) ∧
      ChunkedUploadService.uploadChunk st1
        { uploadId := st1.session.uploadId, chunkIndex := k
          totalChunks := st1.session.totalChunks, chunk := b2 } =
        .ok (st2, r2, st.session.totalChunks) ∧
      st2.tempFiles k = some b2 ∧
      r2 = r1 ∧
      st2.session.receivedChunks = st1.session.receivedChunks := by
  have hup1 := uploadChunk_ok st
    { uploadId := st.session.uploadId, chunkIndex := k
      totalChunks := st.session.totalChunks, chunk := b1 } h0 h1 hb1
  have hup2 := uploadChunk_ok
    { session := { st.session with
        receivedChunks := insert k st.session.receivedChunks }
      tempFiles := fun i => if i = k then some b1 else st.tempFiles i }
    { uploadId := st.session.uploadId, chunkIndex := k
      totalChunks := st.session.totalChunks, chunk := b2 } h0 h1 hb2
  exact ⟨_, _, _, _, hup1, hup2, by simp,
    congrArg Finset.card (Finset.insert_idem k st.session.receivedChunks),
    Finset.insert_idem k st.session.receivedChunks⟩

/-- C8 witness: on a fresh two-chunk session, uploading index 0 as `[1]` and
then as `[2]` keeps the count at one and stores `[2]`. -/
theorem uploadChunk_idempotent_witness :
    ∃ st1 r1 st2 r2,
      ChunkedUploadService.uploadChunk stC9
        { uploadId := stC9.session.uploadId, chunkIndex := 0
          totalChunks := stC9.session.totalChunks, chunk := [1] } =
        .ok (st1, r1, stC9.session.totalChunks) ∧
      ChunkedUploadService.uploadChunk st1
        { uploadId := st1.session.uploadId, chunkIndex := 0
          totalChunks := st1.session.totalChunks, chunk := [2] } =
        .ok (st2, r2, stC9.session.totalChunks) ∧
      st2.tempFiles 0 = some [2] ∧
      r2 = r1 ∧
      st2.session.receivedChunks = st1.session.receivedChunks :=
  uploadChunk_idempotent stC9 0 [1] [2] (by decide) (by decide) (by decide)
    (by decide)

/-- C9 (amended): `uploadChunk` accepts a chunk exactly when its index is in
range and its length is at most the configured maximum chunk size; the
per-index expected size is computed but never enforced, so a short non-last
chunk is accepted rather than rejected (see the counterexample). -/
theorem chunk_size_check (st : UploadState) (input : ChunkUploadInput) :
    acceptedChunk st input = true ↔
      (0 ≤ input.chunkIndex ∧ input.chunkIndex < (st.session.totalChunks : Int) ∧
        input.chunk.length ≤ UPLOAD_LIMITS.CHUNK) := by
  unfold acceptedChunk ChunkedUploadService.uploadChunk
  dsimp only []
  split_ifs with hA hB
  · constructor
    · intro h
      exact absurd h (by decide)
    · rintro ⟨h0, hN, -⟩
      rcases hA with h | h <;> omega
  · push_neg at hA
    constructor
    · intro h
      exact absurd h (by decide)
    · rintro ⟨-, -, hlen⟩
      omega
  · push_neg at hA
    constructor
    · intro _
      exact ⟨hA.1, hA.2, le_of_not_lt hB⟩
    · intro _
      rfl

/-- C9 counterexample: a 3-byte chunk at non-last index 0 of a two-chunk
(6 MB) session is accepted although the expected size of a non-last chunk is
the full 5 MB — the source computes `expectedChunkSize` but never compares
it. -/
theorem chunk_size_check_counterexample :
    acceptedChunk stC9 inputC9 = true ∧
    inputC9.chunkIndex < (stC9.session.totalChunks : Int) - 1 ∧
    inputC9.chunk.length ≠ UPLOAD_LIMITS.CHUNK := by
  refine ⟨by decide, by decide, by decide⟩

/-- C9 witness: the acceptance characterization applied to the concrete
short chunk. -/
theorem chunk_size_check_witness : acceptedChunk stC9 inputC9 = true :=
  (chunk_size_check stC9 inputC9).mpr ⟨by decide, by decide, by decide⟩

/-- C10 (amended): for an asset that has never completed a render
(`pageCount = 0` — every creation and first-delivery state), an authorized
caller gets NotFound 404 "Page not found" from `getRenderedPage` for every
page number ≥ 1, while `getSecurePdf` on the same not-COMPLETED asset yields
the distinguishable Locked (423) signal; a redelivered worker run can leave a
non-COMPLETED asset with a positive pageCount whose pages are still served
(see the counterexample). -/
theorem renderedPage_notFound_while_processing
    (partFile : PartFile) (ctx : AccessCtx) (pageNumber : Int)
    (storageHasKey : Bool)
    (hpc : partFile.pageCount = 0) (hp : 1 ≤ pageNumber)
    (hacc : accessGranted ctx = true) (hlock : lockBlocks ctx = false) :
    UploadService.getRenderedPage (some partFile) ctx pageNumber =
      .error ⟨"Page not found", 404⟩ ∧
    (partFile.renderStatus ≠ .COMPLETED →
      UploadService.getSecurePdf (some partFile) ctx storageHasKey =
        .error ⟨"Document is processing", 423⟩) := by
  constructor
  · unfold UploadService.getRenderedPage
    dsimp only []
    rw [if_neg (not_not_intro hacc),
      if_neg (by rw [hlock]; exact Bool.false_ne_true),
      if_pos (Or.inr (by rw [hpc]; show ((0 : Nat) : Int) < pageNumber; omega))]
  · intro hst
    unfold UploadService.getSecurePdf
    dsimp only []
    rw [if_neg (not_not_intro hacc),
      if_neg (by rw [hlock]; exact Bool.false_ne_true),
      if_pos hst]

/-- C10 counterexample: after a redelivery marks the previously COMPLETED
asset `f10` FAILED, its pageCount is still 3 and `getRenderedPage` serves
page 2 to an authorized caller rather than failing NotFound — the claimed
"pageCount is still 0 whenever not COMPLETED" invariant does not survive
redelivery. -/
theorem renderedPage_notFound_counterexample :
    worldC10redelivered.asset.renderStatus ≠ .COMPLETED ∧
    worldC10redelivered.asset.pageCount = 3 ∧
    UploadService.getRenderedPage (some worldC10redelivered.asset)
      ctxInstructor 2 = .ok "/secured/f10.pdf/page-2.png" :=
  ⟨by decide, rfl, rfl⟩

/-- C10 witness: a fresh PROCESSING asset with pageCount 0 yields 404 for
page 1 from the page endpoint and 423 from the secure stream. -/
theorem renderedPage_notFound_while_processing_witness :
    UploadService.getRenderedPage (some worldC10.asset) ctxInstructor 1 =
      .error ⟨"Page not found", 404⟩ ∧
    UploadService.getSecurePdf (some worldC10.asset) ctxInstructor true =
      .error ⟨"Document is processing", 423⟩ := by
  have h := renderedPage_notFound_while_processing worldC10.asset ctxInstructor 1
    true rfl (by decide) rfl rfl
  exact ⟨h.1, h.2 (by decide)⟩
